import Mathlib

/-!
Verification of the Smart Resume Analyser core pipeline
(`parser.py`, `extractor.py`, `scorer.py`, `suggester.py`) against its
specification.  Python string primitives (`in`, `str.lower`, `str.strip`,
`str.split`, `str.join`, `str.endswith`) and the two regular expressions of
`extractor.py` are embedded as executable functions over `List Char`; the
TF-IDF similarity of `scorer.py` is embedded over `ℝ` with sklearn's
documented defaults.
-/

set_option maxRecDepth 100000

/-! ## Python string primitives -/

/-- `isPrefixOfL p l`: the char list `p` starts the char list `l`. -/
def isPrefixOfL : List Char → List Char → Bool
  | [], _ => true
  | _ :: _, [] => false
  | a :: as, b :: bs => a == b && isPrefixOfL as bs

/-- Python's substring test `needle in hay` (`hay.__contains__(needle)`). -/
def containsSub (hay needle : List Char) : Bool :=
  isPrefixOfL needle hay ||
    match hay with
    | [] => false
    | _ :: t => containsSub t needle

/-- Python's `hay.endswith(needle)`. -/
def endsWithL (hay needle : List Char) : Bool :=
  isPrefixOfL needle.reverse hay.reverse

/-- Python's `str.lower` on a char list (ASCII case mapping). -/
def lowerL (l : List Char) : List Char := l.map Char.toLower

/-- The whitespace set of Python's `str.strip` / `\s` (ASCII part). -/
def pyIsSpace (c : Char) : Bool :=
  c = ' ' || c = '\t' || c = '\n' || c = '\r' || c = '\x0b' || c = '\x0c'

/-- Python's `str.strip()`: drop leading and trailing whitespace. -/
def stripChars (l : List Char) : List Char :=
  ((l.dropWhile pyIsSpace).reverse.dropWhile pyIsSpace).reverse

/-- Python's `text.split("\n")` on a char list. -/
def pySplitNl : List Char → List (List Char)
  | [] => [[]]
  | c :: cs =>
    if c = '\n' then [] :: pySplitNl cs
    else
      match pySplitNl cs with
      | [] => [[c]]
      | h :: t => (c :: h) :: t

/-- Python's `"\n".join(pieces)` on char lists. -/
def pyJoinNl : List (List Char) → List Char
  | [] => []
  | [a] => a
  | a :: b :: t => a ++ '\n' :: pyJoinNl (b :: t)

/-- `[n, n-1, ..., 1]`: the order in which a greedy counted repetition
backtracks. -/
def downFrom : Nat → List Nat
  | 0 => []
  | n + 1 => (n + 1) :: downFrom n

/-! ## `scorer.py`: `get_matching_keywords` -/

/-- The `important_keywords` list of `scorer.py` (lines 64-70), verbatim. -/
def important_keywords : List String :=
  ["python", "java", "javascript", "react", "angular", "vue",
   "django", "flask", "spring", "nodejs", "sql", "nosql",
   "aws", "azure", "docker", "kubernetes", "git", "agile",
   "machine learning", "data analysis", "api", "microservices",
   "leadership", "communication", "teamwork", "problem solving"]

/-- The dictionary returned by `get_matching_keywords`. -/
structure MatchResult where
  matched : List String
  missing : List String
  match_count : Nat
  total_required : Nat
  deriving DecidableEq, Repr

/-- `scorer.get_matching_keywords` (lines 47-84): lowercase both texts,
keep the vocabulary keywords that occur in the job text, and split them by
occurrence in the resume text. -/
def get_matching_keywords (resume_text job_description : String) : MatchResult :=
  let resume_lower := lowerL resume_text.data
  let job_lower := lowerL job_description.data
  let job_keywords := important_keywords.filter (fun kw => containsSub job_lower kw.data)
  let matched := job_keywords.filter (fun kw => containsSub resume_lower kw.data)
  let missing := job_keywords.filter (fun kw => !containsSub resume_lower kw.data)
  { matched := matched, missing := missing,
    match_count := matched.length, total_required := job_keywords.length }

/-! ## Substring characterization of `containsSub` -/

theorem isPrefixOfL_iff (p l : List Char) :
    isPrefixOfL p l = true ↔ ∃ r, l = p ++ r := by
  induction p generalizing l with
  | nil => exact ⟨fun _ => ⟨l, by simp⟩, fun _ => rfl⟩
  | cons a as ih =>
    cases l with
    | nil =>
      simp [isPrefixOfL]
    | cons b bs =>
      simp only [isPrefixOfL, Bool.and_eq_true, beq_iff_eq, ih]
      constructor
      · rintro ⟨rfl, r, rfl⟩
        exact ⟨r, rfl⟩
      · rintro ⟨r, h⟩
        cases h
        exact ⟨rfl, r, rfl⟩

theorem containsSub_iff (hay needle : List Char) :
    containsSub hay needle = true ↔ ∃ l r, hay = l ++ needle ++ r := by
  induction hay with
  | nil =>
    rw [containsSub]
    simp only [Bool.or_false, isPrefixOfL_iff]
    constructor
    · rintro ⟨r, h⟩
      exact ⟨[], r, by simpa using h⟩
    · rintro ⟨l, r, h⟩
      rcases List.append_eq_nil.mp (List.append_eq_nil.mp h.symm).1 with ⟨rfl, rfl⟩
      exact ⟨r, by simpa using h⟩
  | cons c t ih =>
    rw [containsSub]
    simp only [Bool.or_eq_true, isPrefixOfL_iff, ih]
    constructor
    · rintro (⟨r, h⟩ | ⟨l, r, h⟩)
      · exact ⟨[], r, by simpa using h⟩
      · exact ⟨c :: l, r, by simp [h]⟩
    · rintro ⟨l, r, h⟩
      cases l with
      | nil => exact Or.inl ⟨r, by simpa using h⟩
      | cons x xs =>
        right
        refine ⟨xs, r, ?_⟩
        simpa using (List.cons_eq_cons.mp h).2

theorem filter_length_split {α : Type} (p : α → Bool) (l : List α) :
    (l.filter p).length + (l.filter (fun a => !p a)).length = l.length := by
  induction l with
  | nil => rfl
  | cons a t ih =>
    by_cases h : p a = true <;> simp [List.filter_cons, h, ← ih] <;> omega

/-- Claim C3: for every pair of input strings, the `MatchResult` produced by
`get_matching_keywords` satisfies `match_count + len(missing) = total_required`;
`matched` and `missing` are disjoint; their union is exactly the set of
vocabulary keywords occurring as substrings of the lowercased job text; and
`matched` and `missing` both preserve vocabulary order (they are sublists of
`important_keywords`). -/
theorem get_matching_keywords_invariants (resume_text job_description : String) :
    (get_matching_keywords resume_text job_description).match_count
        + (get_matching_keywords resume_text job_description).missing.length
      = (get_matching_keywords resume_text job_description).total_required ∧
    (∀ kw, kw ∈ (get_matching_keywords resume_text job_description).matched →
      kw ∉ (get_matching_keywords resume_text job_description).missing) ∧
    (∀ kw, (kw ∈ (get_matching_keywords resume_text job_description).matched ∨
            kw ∈ (get_matching_keywords resume_text job_description).missing) ↔
      (kw ∈ important_keywords ∧
        ∃ l r, lowerL job_description.data = l ++ kw.data ++ r)) ∧
    (get_matching_keywords resume_text job_description).matched.Sublist important_keywords ∧
    (get_matching_keywords resume_text job_description).missing.Sublist important_keywords := by
  simp only [get_matching_keywords]
  refine ⟨?_, ?_, ?_, ?_, ?_⟩
  · exact filter_length_split _ _
  · intro kw hm hn
    have h1 := (List.mem_filter.mp hm).2
    have h2 := (List.mem_filter.mp hn).2
    simp at h2
    rw [h1] at h2
    exact absurd h2 (by simp)
  · intro kw
    constructor
    · intro h
      have hjk : kw ∈ important_keywords.filter
          (fun kw => containsSub (lowerL job_description.data) kw.data) := by
        rcases h with h | h
        · exact (List.mem_filter.mp h).1
        · exact (List.mem_filter.mp h).1
      have := List.mem_filter.mp hjk
      exact ⟨this.1, (containsSub_iff _ _).mp this.2⟩
    · rintro ⟨hmem, hsub⟩
      have hjk : kw ∈ important_keywords.filter
          (fun kw => containsSub (lowerL job_description.data) kw.data) :=
        List.mem_filter.mpr ⟨hmem, (containsSub_iff _ _).mpr hsub⟩
      by_cases hp : containsSub (lowerL resume_text.data) kw.data = true
      · exact Or.inl (List.mem_filter.mpr ⟨hjk, hp⟩)
      · exact Or.inr (List.mem_filter.mpr ⟨hjk, by simpa using hp⟩)
  · exact (List.filter_sublist _).trans (List.filter_sublist _)
  · exact (List.filter_sublist _).trans (List.filter_sublist _)

/-! ## `suggester.py`: `get_resume_suggestions` -/

/-- The strengths-section bullet template of `suggester.py` line 41. -/
def strengthBullet (skill : String) : String :=
  "• Demonstrated experience in " ++ skill

/-- The gaps-section bullet template of `suggester.py` line 52. -/
def gapBullet (skill : String) : String :=
  "• Consider adding practical experience with " ++ skill

/-- The `assessment` variable of `get_resume_suggestions` (lines 15-29):
three fixed texts banded at `match_score >= 75` / `>= 50`. -/
def assessmentFor (match_score : ℚ) : String :=
  if 75 ≤ match_score then
    "Strong alignment with the job requirements. The candidate demonstrates solid technical compatibility and relevant experience."
  else if 50 ≤ match_score then
    "Moderate alignment with the job description. Some important skills are present, but improvements are needed."
  else
    "Low alignment with the job description. Several key skills and experiences are missing."

/-- The strengths section (lines 39-43): first five matched skills as
bullets, or the fixed no-match bullet. -/
def strengthLines (matched_skills : List String) : List String :=
  if matched_skills ≠ [] then (matched_skills.take 5).map strengthBullet
  else ["• No strong skill matches identified."]

/-- The gaps section (lines 50-54): every missing skill as a bullet, or the
fixed all-covered bullet. -/
def gapLines (missing_skills : List String) : List String :=
  if missing_skills ≠ [] then missing_skills.map gapBullet
  else ["• Resume already covers most required skills."]

/-- The fixed suggestion lines appended after the gaps section
(lines 59-82): five static recommendations and two rewrite example pairs. -/
def fixedTailLines : List String :=
  ["\n========== SPECIFIC RECOMMENDATIONS ==========",
   "• Add measurable achievements (e.g., improved efficiency by 30%).",
   "• Include more technical details about your projects.",
   "• Align resume keywords exactly with job description keywords.",
   "• Highlight frameworks, tools, and technologies clearly.",
   "• Add GitHub, portfolio, or live project links.",
   "\n========== RESUME REWRITE SUGGESTIONS ==========",
   "\nBefore: Worked on a web development project.",
   "After: Developed a scalable web application using Python and Flask, reducing server response time by 40% and improving user experience.",
   "\nBefore: Responsible for database management.",
   "After: Designed and optimized SQL database schemas, improving query performance by 35%."]

/-- The `suggestions` list accumulated by `get_resume_suggestions`
(lines 10-82), in append order. -/
def suggestionLines (match_score : ℚ) (matched_skills missing_skills : List String) :
    List String :=
  ["========== OVERALL ASSESSMENT ==========", assessmentFor match_score,
   "\n========== KEY STRENGTHS =========="] ++ strengthLines matched_skills ++
  ["\n========== AREAS FOR IMPROVEMENT =========="] ++ gapLines missing_skills ++
  fixedTailLines

set_option linter.unusedVariables false in
/-- `suggester.get_resume_suggestions` (lines 4-84): the accumulated
suggestion lines joined by `"\n".join`.  The `resume_text` and
`job_description` parameters are declared by the source but never read. -/
def get_resume_suggestions (resume_text job_description : String) (match_score : ℚ)
    (matched_skills missing_skills : List String) : String :=
  String.mk (pyJoinNl ((suggestionLines match_score matched_skills missing_skills).map
    String.data))

/-- Claim C10: the suggestion report depends only on
`(match_score, matched_skills, missing_skills)`; two calls agreeing on those
three arguments but differing arbitrarily in `resume_text` and
`job_description` return identical strings. -/
theorem get_resume_suggestions_pure (r1 j1 r2 j2 : String) (match_score : ℚ)
    (matched_skills missing_skills : List String) :
    get_resume_suggestions r1 j1 match_score matched_skills missing_skills =
      get_resume_suggestions r2 j2 match_score matched_skills missing_skills := rfl

/-! ## Re-deriving the skill lists from the rendered report -/

/-- The strengths-bullet template text, as a char list. -/
def strengthTagChars : List Char := "• Demonstrated experience in ".data

/-- The gaps-bullet template text, as a char list. -/
def gapTagChars : List Char := "• Consider adding practical experience with ".data

/-- Strip a fixed leading template from a rendered line, keeping the skill. -/
def stripTag (tag line : List Char) : Option (List Char) :=
  if isPrefixOfL tag line then some (line.drop tag.length) else none

/-- Collect, from every line of a report, whatever follows the given
template text. -/
def deriveWith (tag : List Char) (report : String) : List String :=
  (pySplitNl report.data).filterMap (fun line => (stripTag tag line).map String.mk)

/-- Re-derive the matched list from a rendered report, per the round-trip
procedure of the specification. -/
def deriveMatched (report : String) : List String :=
  deriveWith strengthTagChars report

/-- Re-derive the missing list from a rendered report, per the round-trip
procedure of the specification. -/
def deriveMissing (report : String) : List String :=
  deriveWith gapTagChars report

/-! ## Split/join lemmas -/

theorem pySplitNl_ne_nil (l : List Char) : pySplitNl l ≠ [] := by
  cases l with
  | nil => simp [pySplitNl]
  | cons c cs =>
    rw [pySplitNl]
    by_cases h : c = '\n'
    · simp [h]
    · simp only [if_neg h]
      cases hs : pySplitNl cs <;> simp

theorem pySplitNl_append (a b : List Char) :
    pySplitNl (a ++ '\n' :: b) = pySplitNl a ++ pySplitNl b := by
  induction a with
  | nil => simp [pySplitNl]
  | cons c cs ih =>
    by_cases h : c = '\n'
    · subst h
      rw [List.cons_append, pySplitNl, if_pos rfl, ih]
      rw [pySplitNl, if_pos rfl]
      rfl
    · rw [List.cons_append, pySplitNl, if_neg h, ih]
      rw [pySplitNl, if_neg h]
      cases hs : pySplitNl cs with
      | nil => exact absurd hs (pySplitNl_ne_nil cs)
      | cons hh tt => simp

theorem pyJoinNl_split (ls : List (List Char)) (h : ls ≠ []) :
    pySplitNl (pyJoinNl ls) = ls.flatMap pySplitNl := by
  induction ls with
  | nil => exact absurd rfl h
  | cons a t ih =>
    cases t with
    | nil => simp [pyJoinNl]
    | cons b t2 =>
      rw [pyJoinNl, pySplitNl_append, ih (by simp)]
      simp

theorem pySplitNl_no_nl (l : List Char) (h : ('\n') ∉ l) : pySplitNl l = [l] := by
  induction l with
  | nil => rfl
  | cons c cs ih =>
    simp only [List.mem_cons, not_or] at h
    rw [pySplitNl, if_neg (fun e => h.1 (by rw [e])), ih h.2]

theorem filterMap_flatMap {α β γ : Type} (l : List α) (g : α → List β) (f : β → Option γ) :
    (l.flatMap g).filterMap f = l.flatMap (fun a => (g a).filterMap f) := by
  induction l with
  | nil => rfl
  | cons a t ih => simp [List.filterMap_append, ih]

theorem isPrefixOfL_append_self (p s : List Char) : isPrefixOfL p (p ++ s) = true := by
  induction p with
  | nil => rfl
  | cons a t ih => simp [isPrefixOfL, ih]

theorem stripTag_self (tag s : List Char) : stripTag tag (tag ++ s) = some s := by
  rw [stripTag, if_pos (isPrefixOfL_append_self tag s), List.drop_left]

theorem deriveWith_join (tag : List Char) (sugg : List String) (h : sugg ≠ []) :
    deriveWith tag (String.mk (pyJoinNl (sugg.map String.data))) =
      sugg.flatMap (deriveWith tag) := by
  unfold deriveWith
  rw [show (String.mk (pyJoinNl (sugg.map String.data))).data
        = pyJoinNl (sugg.map String.data) from rfl]
  rw [pyJoinNl_split _ (by simpa using h), filterMap_flatMap, List.flatMap_map]

theorem deriveWith_of_bullet (tag : List Char) (s : String)
    (htag : ('\n') ∉ tag) (hs : ('\n') ∉ s.data) :
    deriveWith tag (String.mk (tag ++ s.data)) = [s] := by
  unfold deriveWith
  rw [show (String.mk (tag ++ s.data)).data = tag ++ s.data from rfl]
  rw [pySplitNl_no_nl _ (by simp only [List.mem_append, not_or]; exact ⟨htag, hs⟩)]
  simp [stripTag_self]

theorem deriveWith_strength_head (q : ℚ) :
    (["========== OVERALL ASSESSMENT ==========", assessmentFor q,
      "\n========== KEY STRENGTHS =========="] : List String).flatMap
      (deriveWith strengthTagChars) = [] := by
  rw [assessmentFor]
  split_ifs <;> decide

theorem deriveWith_gap_head (q : ℚ) :
    (["========== OVERALL ASSESSMENT ==========", assessmentFor q,
      "\n========== KEY STRENGTHS =========="] : List String).flatMap
      (deriveWith gapTagChars) = [] := by
  rw [assessmentFor]
  split_ifs <;> decide

theorem strength_block (l : List String) (h : ∀ s ∈ l, ('\n') ∉ s.data) :
    (l.map strengthBullet).flatMap (deriveWith strengthTagChars) = l := by
  induction l with
  | nil => rfl
  | cons s t ih =>
    simp only [List.map_cons, List.flatMap_cons]
    rw [show strengthBullet s = String.mk (strengthTagChars ++ s.data) from rfl,
        deriveWith_of_bullet _ _ (by decide) (h s (List.mem_cons_self s t)),
        ih (fun x hx => h x (List.mem_cons_of_mem s hx))]
    rfl

theorem gap_block (l : List String) (h : ∀ s ∈ l, ('\n') ∉ s.data) :
    (l.map gapBullet).flatMap (deriveWith gapTagChars) = l := by
  induction l with
  | nil => rfl
  | cons s t ih =>
    simp only [List.map_cons, List.flatMap_cons]
    rw [show gapBullet s = String.mk (gapTagChars ++ s.data) from rfl,
        deriveWith_of_bullet _ _ (by decide) (h s (List.mem_cons_self s t)),
        ih (fun x hx => h x (List.mem_cons_of_mem s hx))]
    rfl

theorem gap_bullet_no_strength (s : String) (hs : ('\n') ∉ s.data) :
    deriveWith strengthTagChars (gapBullet s) = [] := by
  unfold deriveWith
  rw [show (gapBullet s).data = gapTagChars ++ s.data from rfl,
      pySplitNl_no_nl _ (by simp only [List.mem_append, not_or]; exact ⟨by decide, hs⟩)]
  simp [show stripTag strengthTagChars (gapTagChars ++ s.data) = none from rfl]

theorem strength_bullet_no_gap (s : String) (hs : ('\n') ∉ s.data) :
    deriveWith gapTagChars (strengthBullet s) = [] := by
  unfold deriveWith
  rw [show (strengthBullet s).data = strengthTagChars ++ s.data from rfl,
      pySplitNl_no_nl _ (by simp only [List.mem_append, not_or]; exact ⟨by decide, hs⟩)]
  simp [show stripTag gapTagChars (strengthTagChars ++ s.data) = none from rfl]

theorem gap_block_under_strength (l : List String) (h : ∀ s ∈ l, ('\n') ∉ s.data) :
    (l.map gapBullet).flatMap (deriveWith strengthTagChars) = [] := by
  induction l with
  | nil => rfl
  | cons s t ih =>
    simp only [List.map_cons, List.flatMap_cons]
    rw [gap_bullet_no_strength s (h s (List.mem_cons_self s t)),
        ih (fun x hx => h x (List.mem_cons_of_mem s hx))]
    rfl

theorem strength_block_under_gap (l : List String) (h : ∀ s ∈ l, ('\n') ∉ s.data) :
    (l.map strengthBullet).flatMap (deriveWith gapTagChars) = [] := by
  induction l with
  | nil => rfl
  | cons s t ih =>
    simp only [List.map_cons, List.flatMap_cons]
    rw [strength_bullet_no_gap s (h s (List.mem_cons_self s t)),
        ih (fun x hx => h x (List.mem_cons_of_mem s hx))]
    rfl

theorem strengthLines_derive (l : List String) (h : ∀ s ∈ l, ('\n') ∉ s.data) :
    (strengthLines l).flatMap (deriveWith strengthTagChars) = l.take 5 := by
  rw [strengthLines]
  by_cases h0 : l = []
  · subst h0
    decide
  · rw [if_pos h0]
    exact strength_block _ (fun x hx => h x ((List.take_sublist 5 l).mem hx))

theorem strengthLines_under_gap (l : List String) (h : ∀ s ∈ l, ('\n') ∉ s.data) :
    (strengthLines l).flatMap (deriveWith gapTagChars) = [] := by
  rw [strengthLines]
  by_cases h0 : l = []
  · subst h0
    decide
  · rw [if_pos h0]
    exact strength_block_under_gap _ (fun x hx => h x ((List.take_sublist 5 l).mem hx))

theorem gapLines_derive (l : List String) (h : ∀ s ∈ l, ('\n') ∉ s.data) :
    (gapLines l).flatMap (deriveWith gapTagChars) = l := by
  rw [gapLines]
  by_cases h0 : l = []
  · subst h0
    decide
  · rw [if_pos h0]
    exact gap_block _ h

theorem gapLines_under_strength (l : List String) (h : ∀ s ∈ l, ('\n') ∉ s.data) :
    (gapLines l).flatMap (deriveWith strengthTagChars) = [] := by
  rw [gapLines]
  by_cases h0 : l = []
  · subst h0
    decide
  · rw [if_pos h0]
    exact gap_block_under_strength _ h

/-- Claim C5 (amended): composing a report with `get_resume_suggestions` and
re-deriving the skill lists from the rendered bullets (by the fixed template
texts) recovers exactly the first five entries of `matched` — the strengths
section renders only `matched[:5]` — and all of `missing`, for skills free
of embedded newlines.  The original claim, recovery of all of `matched`,
fails as soon as `matched` has more than five entries. -/
theorem suggestions_roundtrip (resume_text job_description : String) (match_score : ℚ)
    (matched_skills missing_skills : List String)
    (hm : ∀ s ∈ matched_skills, ('\n') ∉ s.data)
    (hn : ∀ s ∈ missing_skills, ('\n') ∉ s.data) :
    deriveMatched (get_resume_suggestions resume_text job_description match_score
        matched_skills missing_skills) = matched_skills.take 5 ∧
    deriveMissing (get_resume_suggestions resume_text job_description match_score
        matched_skills missing_skills) = missing_skills := by
  constructor
  · rw [deriveMatched, get_resume_suggestions,
        deriveWith_join _ _ (by simp [suggestionLines]),
        suggestionLines]
    simp only [List.flatMap_append]
    rw [deriveWith_strength_head, strengthLines_derive _ hm,
        gapLines_under_strength _ hn,
        show (["\n========== AREAS FOR IMPROVEMENT =========="] : List String).flatMap
          (deriveWith strengthTagChars) = [] from by decide,
        show fixedTailLines.flatMap (deriveWith strengthTagChars) = [] from by decide]
    simp
  · rw [deriveMissing, get_resume_suggestions,
        deriveWith_join _ _ (by simp [suggestionLines]),
        suggestionLines]
    simp only [List.flatMap_append]
    rw [deriveWith_gap_head, strengthLines_under_gap _ hm,
        gapLines_derive _ hn,
        show (["\n========== AREAS FOR IMPROVEMENT =========="] : List String).flatMap
          (deriveWith gapTagChars) = [] from by decide,
        show fixedTailLines.flatMap (deriveWith gapTagChars) = [] from by decide]
    simp

/-- Claim C5, counterexample to the claim as stated: with six matched skills
the strengths section renders only the first five bullets, so re-deriving
`matched` from the report loses the sixth skill. -/
theorem suggestions_roundtrip_counterexample :
    deriveMatched (get_resume_suggestions "" "" 80
        ["python", "java", "javascript", "react", "angular", "vue"] [])
      = ["python", "java", "javascript", "react", "angular"] ∧
    deriveMatched (get_resume_suggestions "" "" 80
        ["python", "java", "javascript", "react", "angular", "vue"] [])
      ≠ ["python", "java", "javascript", "react", "angular", "vue"] := by
  constructor <;> decide

/-- Claim C5, witness: the amended round-trip at a concrete `MatchResult`. -/
theorem suggestions_roundtrip_witness :
    deriveMatched (get_resume_suggestions "r" "j" 80 ["python", "sql"] ["aws"])
      = ["python", "sql"] ∧
    deriveMissing (get_resume_suggestions "r" "j" 80 ["python", "sql"] ["aws"])
      = ["aws"] := by
  have h := suggestions_roundtrip "r" "j" 80 ["python", "sql"] ["aws"]
    (by decide) (by decide)
  exact ⟨h.1.trans (by rfl), h.2⟩

/-! ## `extractor.py`: regex-based field extraction

The two patterns of `extractor.py` are embedded with Python `re` semantics:
leftmost match, greedy quantifiers backtracking from longest to shortest,
alternatives in priority order.  Character classes follow the pattern text;
`\w`, `\d` and class shorthands are taken in their ASCII reading. -/

/-- `\w` of Python `re` (ASCII reading). -/
def isWordChar (c : Char) : Bool := c.isAlphanum || c = '_'

/-- The local-part class `[A-Za-z0-9._%+-]` of the email pattern. -/
def isLocalChar (c : Char) : Bool :=
  c.isAlphanum || c = '.' || c = '_' || c = '%' || c = '+' || c = '-'

/-- The domain class `[A-Za-z0-9.-]` of the email pattern. -/
def isDomainChar (c : Char) : Bool := c.isAlphanum || c = '.' || c = '-'

/-- The top-level-domain class `[A-Z|a-z]` of the email pattern (the `|` is
a literal member of the class). -/
def isTldChar (c : Char) : Bool := c.isAlpha || c = '|'

/-- Length of the maximal run of class characters at the head: how far a
greedy `+` reaches before backtracking. -/
def runLen (p : Char → Bool) : List Char → Nat
  | [] => 0
  | c :: t => if p c then runLen p t + 1 else 0

/-- Whether an optional preceding character is a word character (`\b` treats
the outside of the string as a non-word position). -/
def wordOpt (c : Option Char) : Bool :=
  match c with
  | some c => isWordChar c
  | none => false

/-- The email pattern `\b[A-Za-z0-9._%+-]+@[A-Za-z0-9.-]+\.[A-Z|a-z]{2,}\b`
of `extract_email` (line 53), matched at one position: `prev` is the
character before the position (for the leading `\b`), `s` the rest of the
text.  Greedy `+`/`{2,}` backtrack from the maximal run downwards; the
result is the matched substring. -/
def emailMatchCore (prev : Option Char) (s : List Char) : Option (List Char) :=
  let pw := wordOpt prev
  let hw := match s with | [] => false | c :: _ => isWordChar c
  if pw == hw then none
  else
    (downFrom (runLen isLocalChar s)).findSome? fun l =>
      match s.drop l with
      | '@' :: rest2 =>
        (downFrom (runLen isDomainChar rest2)).findSome? fun d =>
          match rest2.drop d with
          | '.' :: rest4 =>
            ((downFrom (runLen isTldChar rest4)).filter (fun k => 2 ≤ k)).findSome? fun tl =>
              let lw := match (rest4.take tl).getLast? with
                | some c => isWordChar c
                | none => false
              let nw := match rest4.drop tl with | c :: _ => isWordChar c | [] => false
              if lw != nw then some (s.take (l + 1 + d + 1 + tl)) else none
          | _ => none
      | _ => none

/-- `re.findall`'s left-to-right scan for the email pattern, threading the
previous character for the `\b` assertion. -/
def emailScan (prev : Option Char) : List Char → Option (List Char)
  | [] => emailMatchCore prev []
  | c :: t =>
    match emailMatchCore prev (c :: t) with
    | some m => some m
    | none => emailScan (some c) t

/-- `extractor.extract_email` (lines 42-59): first match of the email
pattern, or the `"Not found"` sentinel. -/
def extract_email (text : String) : String :=
  match emailScan none text.data with
  | some m => String.mk m
  | none => "Not found"

/-- The email pattern matched at an absolute position `i` of the text. -/
def emailPosMatch (prev : Option Char) (s : List Char) (i : Nat) : Option (List Char) :=
  emailMatchCore (if i = 0 then prev else s.get? (i - 1)) (s.drop i)

/-- The separator class `[-.\s]` of the phone pattern. -/
def isSepChar (c : Char) : Bool := c = '-' || c = '.' || pyIsSpace c

/-- Match exactly `k` digits (`\d{k}`), returning them and the rest. -/
def takeDigits : Nat → List Char → Option (List Char × List Char)
  | 0, s => some ([], s)
  | _ + 1, [] => none
  | k + 1, c :: cs =>
    if c.isDigit then (takeDigits k cs).map (fun dr => (c :: dr.1, dr.2)) else none

/-- An optional single character of a class (`X?`): the greedy alternatives
in priority order (consume first, then skip). -/
def optChar (p : Char → Bool) (s : List Char) : List (List Char × List Char) :=
  match s with
  | c :: cs => if p c then [([c], cs), ([], s)] else [([], s)]
  | [] => [([], s)]

/-- Group 1 of the phone pattern, `(\+?\d{1,3}[-.\s]?)?`: all (capture, rest)
alternatives in regex priority order; the unmatched optional group (empty
capture) comes last. -/
def g1Candidates (s : List Char) : List (List Char × List Char) :=
  ((optChar (fun c => c = '+') s).flatMap fun pr =>
    ([3, 2, 1].filterMap fun k =>
        (takeDigits k pr.2).map fun dr => (pr.1 ++ dr.1, dr.2)).flatMap fun dr =>
      (optChar isSepChar dr.2).map fun sr => (dr.1 ++ sr.1, sr.2)) ++ [([], s)]

/-- Group 2 of the phone pattern, `(\(?\d{3}\)?[-.\s]?)`. -/
def g2Candidates (s : List Char) : List (List Char × List Char) :=
  (optChar (fun c => c = '(') s).flatMap fun lp =>
    match takeDigits 3 lp.2 with
    | none => []
    | some (d, s2) =>
      (optChar (fun c => c = ')') s2).flatMap fun rp =>
        (optChar isSepChar rp.2).map fun sep => (lp.1 ++ d ++ rp.1 ++ sep.1, sep.2)

/-- Group 3 of the phone pattern, `(\d{3}[-.\s]?\d{4})`. -/
def g3Candidates (s : List Char) : List (List Char × List Char) :=
  match takeDigits 3 s with
  | none => []
  | some (d1, s1) =>
    (optChar isSepChar s1).flatMap fun sep =>
      match takeDigits 4 sep.2 with
      | none => []
      | some (d2, s2) => [(d1 ++ sep.1 ++ d2, s2)]

/-- The phone pattern
`(\+?\d{1,3}[-.\s]?)?(\(?\d{3}\)?[-.\s]?)(\d{3}[-.\s]?\d{4})` of
`extract_phone` (line 74), matched at one position: the first full
assignment of the three groups in backtracking order; the value is the
triple of captured groups. -/
def phoneMatchAt (s : List Char) : Option (List Char × List Char × List Char) :=
  (g1Candidates s).findSome? fun g1 =>
    (g2Candidates g1.2).findSome? fun g2 =>
      (g3Candidates g2.2).findSome? fun g3 => some (g1.1, g2.1, g3.1)

/-- `re.findall`'s left-to-right scan for the phone pattern: the leftmost
match's groups. -/
def phoneFirst : List Char → Option (List Char × List Char × List Char)
  | [] => phoneMatchAt []
  | c :: t =>
    match phoneMatchAt (c :: t) with
    | some m => some m
    | none => phoneFirst t

/-- `extractor.extract_phone` (lines 62-84): the captured groups of the
first match joined by `''.join`, or the `"Not found"` sentinel. -/
def extract_phone (text : String) : String :=
  match phoneFirst text.data with
  | some (a, b, c) => String.mk (a ++ b ++ c)
  | none => "Not found"

/-! ## `extractor.py`: name extraction -/

/-- The `skip_words` list of `extract_name` (line 131). -/
def skip_words : List String :=
  ["resume", "curriculum", "vitae", "cv", "profile", "summary"]

/-- The per-line test of `extract_name` (lines 129-132), applied to a
stripped line: nonempty, shorter than 50 characters, no digit, and no
header word as a case-insensitive substring. -/
def nameCandidate (line : List Char) : Bool :=
  !line.isEmpty && line.length < 50 && !(line.any Char.isDigit) &&
    !(skip_words.any fun sk => containsSub (lowerL line) sk.data)

/-- `extractor.extract_name` (lines 110-135): strip the text, split on
newlines, and return the first of the FIRST FIVE lines whose stripped form
passes `nameCandidate`, stripped; else the `"Not found"` sentinel. -/
def extract_name (text : String) : String :=
  let lines := (pySplitNl (stripChars text.data)).map stripChars
  match (lines.take 5).find? nameCandidate with
  | some l => String.mk l
  | none => "Not found"

/-- Modelled from the spec: the specification's wording of the heuristic
scans the first 5 NON-EMPTY lines of the text, where the source code scans
the first 5 lines (empty ones included in the count). -/
def extract_name_specModel (text : String) : String :=
  let lines := ((pySplitNl (stripChars text.data)).map stripChars).filter
    (fun l => !l.isEmpty)
  match (lines.take 5).find? nameCandidate with
  | some l => String.mk l
  | none => "Not found"

/-! ## `scorer.py`: `calculate_match_score` (TF-IDF and cosine similarity)

`TfidfVectorizer()` with its defaults: lowercasing, token pattern
`(?u)\b\w\w+\b` (ASCII reading), smoothed idf `ln((1+n)/(1+df)) + 1`, raw
term counts, l2 normalization; `fit_transform` raises `ValueError` when the
fitted vocabulary is empty, modelled as `Except.error`.  The numeric side is
embedded over `ℝ`. -/

/-- Split into maximal runs of word characters (the accumulator holds the
current run, reversed). -/
def tokenizeAux : List Char → List Char → List (List Char)
  | [], acc => if acc.isEmpty then [] else [acc.reverse]
  | c :: cs, acc =>
    if isWordChar c then tokenizeAux cs (c :: acc)
    else if acc.isEmpty then tokenizeAux cs [] else acc.reverse :: tokenizeAux cs []

/-- sklearn's default tokenization: lowercase, then keep the maximal runs
of word characters of length at least 2 (`(?u)\b\w\w+\b`). -/
def tokenize (s : String) : List String :=
  ((tokenizeAux (lowerL s.data) []).filter (fun r => 2 ≤ r.length)).map String.mk

/-- The vocabulary `fit_transform` fits on the two-document corpus: the
distinct terms of either document. -/
def vocab (resume_text job_description : String) : List String :=
  (tokenize resume_text ++ tokenize job_description).dedup

/-- Raw term frequency of term `t` in document `d`. -/
def tf (d t : String) : ℕ := (tokenize d).count t

/-- Document frequency of term `t` over the two-document corpus. -/
def df (resume_text job_description t : String) : ℕ :=
  (if t ∈ tokenize resume_text then 1 else 0) +
    (if t ∈ tokenize job_description then 1 else 0)

/-- sklearn's smoothed inverse document frequency
`idf(t) = ln((1 + n)/(1 + df(t))) + 1`, with `n = 2` documents. -/
noncomputable def idf (resume_text job_description t : String) : ℝ :=
  Real.log ((1 + 2) / (1 + (df resume_text job_description t : ℝ))) + 1

/-- The unnormalized TF-IDF weight vector of document `d`. -/
noncomputable def tfidfWeight (resume_text job_description d : String) : String → ℝ :=
  fun t => (tf d t : ℝ) * idf resume_text job_description t

/-- Dot product of two term-weight vectors over a vocabulary list. -/
noncomputable def dotV (V : List String) (f g : String → ℝ) : ℝ :=
  (V.map fun t => f t * g t).sum

/-- Euclidean norm of a term-weight vector over a vocabulary list. -/
noncomputable def normV (V : List String) (f : String → ℝ) : ℝ :=
  Real.sqrt (dotV V f f)

open Classical in
/-- sklearn's `normalize(X, norm="l2")` on one row: a row of norm zero is
left unchanged (the zero norm is replaced by 1 before dividing). -/
noncomputable def l2normalize (V : List String) (f : String → ℝ) : String → ℝ :=
  if normV V f = 0 then f else fun t => f t / normV V f

/-- One row of `vectorizer.fit_transform(documents)`: the l2-normalized
TF-IDF weights of document `d`. -/
noncomputable def tfidfRow (resume_text job_description d : String) : String → ℝ :=
  l2normalize (vocab resume_text job_description)
    (tfidfWeight resume_text job_description d)

/-- `cosine_similarity(tfidf_matrix[0:1], tfidf_matrix[1:2])[0][0]`: the dot
product of the two rows after `cosine_similarity`'s own l2 normalization. -/
noncomputable def similarity (resume_text job_description : String) : ℝ :=
  dotV (vocab resume_text job_description)
    (l2normalize (vocab resume_text job_description)
      (tfidfRow resume_text job_description resume_text))
    (l2normalize (vocab resume_text job_description)
      (tfidfRow resume_text job_description job_description))

open Classical in
/-- Python's `round(x, 2)` (round half to even), over `ℝ`. -/
noncomputable def pyRound2 (x : ℝ) : ℝ :=
  ((if x * 100 - ⌊x * 100⌋ < 1 / 2 then ⌊x * 100⌋
    else if 1 / 2 < x * 100 - ⌊x * 100⌋ then ⌊x * 100⌋ + 1
    else if Even ⌊x * 100⌋ then ⌊x * 100⌋ else ⌊x * 100⌋ + 1 : ℤ) : ℝ) / 100

/-- The `ValueError` message `fit_transform` raises when no document
contributes a token. -/
def emptyVocabMsg : String :=
  "empty vocabulary; perhaps the documents only contain stop words"

/-- `scorer.calculate_match_score` (lines 8-44): fit TF-IDF on the pair,
take the cosine similarity of the two rows, `round(similarity * 100, 2)`.
`fit_transform` raises (modelled as `Except.error`) when both documents
tokenize to nothing. -/
noncomputable def calculate_match_score (resume_text job_description : String) :
    Except String ℝ :=
  if vocab resume_text job_description = [] then Except.error emptyVocabMsg
  else Except.ok (pyRound2 (similarity resume_text job_description * 100))

/-! ## Scorer lemmas -/

theorem vocab_eq_nil (resume_text job_description : String) :
    vocab resume_text job_description = [] ↔
      tokenize resume_text = [] ∧ tokenize job_description = [] := by
  rw [vocab, List.dedup_eq_nil, List.append_eq_nil]

theorem dotV_zero_left (V : List String) (f g : String → ℝ) (h : ∀ t, f t = 0) :
    dotV V f g = 0 :=
  List.sum_eq_zero (by
    intro x hx
    rcases List.mem_map.mp hx with ⟨t, _, rfl⟩
    simp [h t])

theorem dotV_zero_right (V : List String) (f g : String → ℝ) (h : ∀ t, g t = 0) :
    dotV V f g = 0 :=
  List.sum_eq_zero (by
    intro x hx
    rcases List.mem_map.mp hx with ⟨t, _, rfl⟩
    simp [h t])

theorem l2normalize_of_zero (V : List String) (f : String → ℝ) (h : ∀ t, f t = 0) :
    l2normalize V f = f := by
  rw [l2normalize, if_pos]
  rw [normV, dotV_zero_left V f f h, Real.sqrt_zero]

theorem pyRound2_int (z : ℤ) : pyRound2 (z : ℝ) = (z : ℝ) := by
  have h1 : (z : ℝ) * 100 = ((z * 100 : ℤ) : ℝ) := by push_cast; ring
  rw [pyRound2, h1, Int.floor_intCast, if_pos (by norm_num)]
  push_cast
  ring

theorem mem_vocab_self {a t : String} (ht : t ∈ vocab a a) : t ∈ tokenize a := by
  rcases List.mem_append.mp (List.mem_dedup.mp ht) with h | h <;> exact h

theorem idf_self {a t : String} (ht : t ∈ tokenize a) : idf a a t = 1 := by
  rw [idf, df, if_pos ht]
  norm_num [Real.log_one]

theorem one_le_weight_self {a t : String} (ht : t ∈ tokenize a) :
    (1 : ℝ) ≤ tfidfWeight a a a t := by
  rw [tfidfWeight]
  show (1 : ℝ) ≤ (tf a t : ℝ) * idf a a t
  rw [idf_self ht, mul_one, tf]
  exact_mod_cast Nat.one_le_cast.mpr (List.count_pos_iff.mpr ht)

theorem dotV_self_pos (V : List String) (f : String → ℝ) (hne : V ≠ [])
    (hf : ∀ t ∈ V, 1 ≤ f t) : 0 < dotV V f f := by
  cases V with
  | nil => exact absurd rfl hne
  | cons t ts =>
    rw [dotV, List.map_cons, List.sum_cons]
    have h1 : (1 : ℝ) ≤ f t := hf t (List.mem_cons_self t ts)
    have hpos : 0 < f t * f t :=
      mul_pos (lt_of_lt_of_le one_pos h1) (lt_of_lt_of_le one_pos h1)
    have hrest : 0 ≤ (ts.map fun u => f u * f u).sum :=
      List.sum_nonneg (by
        intro x hx
        rcases List.mem_map.mp hx with ⟨u, _, rfl⟩
        exact mul_self_nonneg _)
    linarith

theorem dotV_div (V : List String) (f : String → ℝ) (c : ℝ) :
    dotV V (fun t => f t / c) (fun t => f t / c) = dotV V f f / (c * c) := by
  rw [dotV, dotV]
  induction V with
  | nil => simp
  | cons t ts ih =>
    simp only [List.map_cons, List.sum_cons, ih]
    field_simp

theorem similarity_self (a : String) (h : tokenize a ≠ []) : similarity a a = 1 := by
  have hVne : vocab a a ≠ [] := fun hv => h ((vocab_eq_nil a a).mp hv).1
  have hw1 : ∀ t ∈ vocab a a, 1 ≤ tfidfWeight a a a t :=
    fun t ht => one_le_weight_self (mem_vocab_self ht)
  have hd : 0 < dotV (vocab a a) (tfidfWeight a a a) (tfidfWeight a a a) :=
    dotV_self_pos _ _ hVne hw1
  have hnw : normV (vocab a a) (tfidfWeight a a a) ≠ 0 := by
    rw [normV]
    exact (Real.sqrt_pos.mpr hd).ne'
  have hrow : tfidfRow a a a =
      fun t => tfidfWeight a a a t / normV (vocab a a) (tfidfWeight a a a) := by
    rw [tfidfRow, l2normalize, if_neg hnw]
  have hu1 : dotV (vocab a a)
      (fun t => tfidfWeight a a a t / normV (vocab a a) (tfidfWeight a a a))
      (fun t => tfidfWeight a a a t / normV (vocab a a) (tfidfWeight a a a)) = 1 := by
    rw [dotV_div, normV, Real.mul_self_sqrt hd.le, div_self hd.ne']
  have hnu : normV (vocab a a)
      (fun t => tfidfWeight a a a t / normV (vocab a a) (tfidfWeight a a a)) = 1 := by
    rw [normV, hu1, Real.sqrt_one]
  have hl2 : l2normalize (vocab a a)
      (fun t => tfidfWeight a a a t / normV (vocab a a) (tfidfWeight a a a)) =
      fun t => tfidfWeight a a a t / normV (vocab a a) (tfidfWeight a a a) := by
    rw [l2normalize, if_neg (by rw [hnu]; exact one_ne_zero)]
    funext t
    rw [hnu, div_one]
  rw [similarity, hrow, hl2]
  exact hu1

/-- Claim C1 (amended): on degenerate input `calculate_match_score` returns
0 when exactly one document tokenizes to nothing (a zero-norm vector), but
raises sklearn's empty-vocabulary `ValueError` — modelled as `Except.error`
— when both do; in particular `calculate_match_score("", "")` raises rather
than returning 0. -/
theorem calculate_match_score_degenerate (resume_text job_description : String)
    (h : tokenize resume_text = [] ∨ tokenize job_description = []) :
    calculate_match_score resume_text job_description =
      if tokenize resume_text = [] ∧ tokenize job_description = [] then
        Except.error emptyVocabMsg
      else Except.ok 0 := by
  by_cases hb : tokenize resume_text = [] ∧ tokenize job_description = []
  · rw [if_pos hb, calculate_match_score, if_pos ((vocab_eq_nil _ _).mpr hb)]
  · rw [if_neg hb, calculate_match_score,
        if_neg (fun hv => hb ((vocab_eq_nil _ _).mp hv))]
    have hsim : similarity resume_text job_description = 0 := by
      rcases h with h | h
      · have hw : ∀ t, tfidfWeight resume_text job_description resume_text t = 0 := by
          intro t
          show (tf resume_text t : ℝ) * idf resume_text job_description t = 0
          rw [tf, h]
          simp
        have hrow : ∀ t, tfidfRow resume_text job_description resume_text t = 0 := by
          intro t
          rw [tfidfRow, l2normalize_of_zero _ _ hw]
          exact hw t
        rw [similarity, l2normalize_of_zero _ _ hrow]
        exact dotV_zero_left _ _ _ hrow
      · have hw : ∀ t, tfidfWeight resume_text job_description job_description t = 0 := by
          intro t
          show (tf job_description t : ℝ) * idf resume_text job_description t = 0
          rw [tf, h]
          simp
        have hrow : ∀ t, tfidfRow resume_text job_description job_description t = 0 := by
          intro t
          rw [tfidfRow, l2normalize_of_zero _ _ hw]
          exact hw t
        rw [similarity, l2normalize_of_zero _ _ hrow]
        exact dotV_zero_right _ _ _ hrow
    rw [hsim, zero_mul, show (0 : ℝ) = ((0 : ℤ) : ℝ) by norm_num, pyRound2_int]

/-- Claim C1, counterexample to the claim as stated:
`calculate_match_score("", "")` raises sklearn's empty-vocabulary
`ValueError` instead of returning 0. -/
theorem calculate_match_score_empty_raises :
    calculate_match_score "" "" = Except.error emptyVocabMsg := by
  rw [calculate_match_score, if_pos (show vocab "" "" = [] by decide)]

/-- Claim C1, witness: one empty document against a tokenizable one scores
`Except.ok 0`. -/
theorem calculate_match_score_degenerate_witness :
    calculate_match_score "" "python" = Except.ok 0 := by
  have h := calculate_match_score_degenerate "" "python" (Or.inl (by decide))
  rwa [if_neg (by decide)] at h

/-- Claim C4 (amended): for every string whose tokenization is nonempty,
`calculate_match_score(a, a)` returns exactly 100 and does not raise; a
non-empty string with no tokens of two or more word characters (such as
`"x"`) instead raises the empty-vocabulary error. -/
theorem calculate_match_score_self (a : String) (h : tokenize a ≠ []) :
    calculate_match_score a a = Except.ok 100 := by
  have hv : vocab a a ≠ [] := fun hv => h ((vocab_eq_nil a a).mp hv).1
  rw [calculate_match_score, if_neg hv, similarity_self a h,
      show (1 : ℝ) * 100 = ((100 : ℤ) : ℝ) by norm_num, pyRound2_int]
  norm_num

/-- Claim C4, counterexample to the claim as stated: `"x"` is a non-empty
string, yet `calculate_match_score("x", "x")` raises the empty-vocabulary
error (the default token pattern drops single-character tokens) instead of
returning ≈ 100. -/
theorem calculate_match_score_self_counterexample :
    "x" ≠ "" ∧ calculate_match_score "x" "x" = Except.error emptyVocabMsg :=
  ⟨by decide, by rw [calculate_match_score, if_pos (show vocab "x" "x" = [] by decide)]⟩

/-- Claim C4, witness: a tokenizable document matched against itself scores
`Except.ok 100`. -/
theorem calculate_match_score_self_witness :
    calculate_match_score "python developer" "python developer" = Except.ok 100 :=
  calculate_match_score_self "python developer" (by decide)

/-! ## Leftmost-match characterizations of the extraction scans -/

theorem emailMatchCore_nil (prev : Option Char) : emailMatchCore prev [] = none := by
  cases hpw : wordOpt prev <;> simp [emailMatchCore, hpw, runLen, downFrom]

theorem emailPosMatch_zero (prev : Option Char) (s : List Char) :
    emailPosMatch prev s 0 = emailMatchCore prev s := by
  simp [emailPosMatch]

theorem emailPosMatch_succ (prev : Option Char) (c : Char) (t : List Char) (i : Nat) :
    emailPosMatch prev (c :: t) (i + 1) = emailPosMatch (some c) t i := by
  cases i with
  | zero => simp [emailPosMatch]
  | succ k => simp [emailPosMatch]

theorem emailScan_spec (s : List Char) : ∀ prev,
    (∃ i m, emailPosMatch prev s i = some m ∧
      (∀ j, j < i → emailPosMatch prev s j = none) ∧ emailScan prev s = some m) ∨
    ((∀ i, emailPosMatch prev s i = none) ∧ emailScan prev s = none) := by
  induction s with
  | nil =>
    intro prev
    exact Or.inr ⟨fun i => by simp [emailPosMatch, emailMatchCore_nil],
      by simp [emailScan, emailMatchCore_nil]⟩
  | cons c t ih =>
    intro prev
    cases h : emailMatchCore prev (c :: t) with
    | some m =>
      refine Or.inl ⟨0, m, ?_, fun j hj => absurd hj (Nat.not_lt_zero j), ?_⟩
      · rw [emailPosMatch_zero]
        exact h
      · simp [emailScan, h]
    | none =>
      have hscan : emailScan prev (c :: t) = emailScan (some c) t := by
        simp [emailScan, h]
      rcases ih (some c) with ⟨i, m, hm, hmin, hres⟩ | ⟨hall, hres⟩
      · refine Or.inl ⟨i + 1, m, ?_, ?_, ?_⟩
        · rw [emailPosMatch_succ]
          exact hm
        · intro j hj
          cases j with
          | zero =>
            rw [emailPosMatch_zero]
            exact h
          | succ j2 =>
            rw [emailPosMatch_succ]
            exact hmin j2 (by omega)
        · rw [hscan]
          exact hres
      · refine Or.inr ⟨?_, by rw [hscan]; exact hres⟩
        intro i
        cases i with
        | zero =>
          rw [emailPosMatch_zero]
          exact h
        | succ i2 =>
          rw [emailPosMatch_succ]
          exact hall i2

/-- Claim C8: for every input text, `extract_email` returns the first (least
starting position) match of the email pattern in document order, or the
`"Not found"` sentinel when no position matches; on the text
`"Contact: jane.doe@example.com for info"` it returns exactly
`"jane.doe@example.com"`. -/
theorem extract_email_first_match :
    (∀ text : String,
      (∃ i m, emailPosMatch none text.data i = some m ∧
        (∀ j, j < i → emailPosMatch none text.data j = none) ∧
        extract_email text = String.mk m) ∨
      ((∀ i, emailPosMatch none text.data i = none) ∧
        extract_email text = "Not found")) ∧
    extract_email "Contact: jane.doe@example.com for info" = "jane.doe@example.com" := by
  constructor
  · intro text
    rcases emailScan_spec text.data none with ⟨i, m, hm, hmin, hres⟩ | ⟨hall, hres⟩
    · exact Or.inl ⟨i, m, hm, hmin, by rw [extract_email, hres]⟩
    · exact Or.inr ⟨hall, by rw [extract_email, hres]⟩
  · decide

theorem phoneFirst_spec (s : List Char) :
    (∃ i m, phoneMatchAt (s.drop i) = some m ∧
      (∀ j, j < i → phoneMatchAt (s.drop j) = none) ∧ phoneFirst s = some m) ∨
    ((∀ i, phoneMatchAt (s.drop i) = none) ∧ phoneFirst s = none) := by
  induction s with
  | nil =>
    cases h : phoneMatchAt [] with
    | some m =>
      exact Or.inl ⟨0, m, by simpa using h,
        fun j hj => absurd hj (Nat.not_lt_zero j), by rw [phoneFirst]; exact h⟩
    | none =>
      exact Or.inr ⟨fun i => by simpa [List.drop_nil] using h, by rw [phoneFirst]; exact h⟩
  | cons c t ih =>
    cases h : phoneMatchAt (c :: t) with
    | some m =>
      exact Or.inl ⟨0, m, by simpa using h,
        fun j hj => absurd hj (Nat.not_lt_zero j), by simp [phoneFirst, h]⟩
    | none =>
      have hf : phoneFirst (c :: t) = phoneFirst t := by simp [phoneFirst, h]
      rcases ih with ⟨i, m, hm, hmin, hres⟩ | ⟨hall, hres⟩
      · refine Or.inl ⟨i + 1, m, by simpa using hm, ?_, by rw [hf]; exact hres⟩
        intro j hj
        cases j with
        | zero => simpa using h
        | succ j2 => simpa using hmin j2 (by omega)
      · refine Or.inr ⟨?_, by rw [hf]; exact hres⟩
        intro i
        cases i with
        | zero => simpa using h
        | succ i2 => simpa using hall i2

/-- Claim C2 (amended): for every input text, `extract_phone` returns the
captured groups of the leftmost phone-pattern match concatenated exactly as
captured — the formatting characters inside the groups (parentheses,
separators) are retained, not stripped — or the `"Not found"` sentinel when
no position matches; on `"Call (555) 123-4567 now"` it returns
`"(555) 123-4567"`, not `"5551234567"`. -/
theorem extract_phone_first_match :
    (∀ text : String,
      (∃ i g1 g2 g3, phoneMatchAt (text.data.drop i) = some (g1, g2, g3) ∧
        (∀ j, j < i → phoneMatchAt (text.data.drop j) = none) ∧
        extract_phone text = String.mk (g1 ++ g2 ++ g3)) ∨
      ((∀ i, phoneMatchAt (text.data.drop i) = none) ∧
        extract_phone text = "Not found")) ∧
    extract_phone "Call (555) 123-4567 now" = "(555) 123-4567" := by
  constructor
  · intro text
    rcases phoneFirst_spec text.data with ⟨i, m, hm, hmin, hres⟩ | ⟨hall, hres⟩
    · obtain ⟨g1, g2, g3⟩ := m
      exact Or.inl ⟨i, g1, g2, g3, hm, hmin, by rw [extract_phone, hres]⟩
    · exact Or.inr ⟨hall, by rw [extract_phone, hres]⟩
  · decide

/-- Claim C2, counterexample to the claim as stated: the captured groups of
the first match on `"Call (555) 123-4567 now"` join to `"(555) 123-4567"` —
group 2 captures its parentheses and trailing space — not to the
formatting-stripped digit string `"5551234567"`. -/
theorem extract_phone_counterexample :
    extract_phone "Call (555) 123-4567 now" ≠ "5551234567" := by
  decide

theorem find?_first {α : Type} (p : α → Bool) (l : List α) :
    (∃ i, ∃ hi : i < l.length, p (l.get ⟨i, hi⟩) = true ∧
      (∀ j (hj : j < l.length), j < i → p (l.get ⟨j, hj⟩) = false) ∧
      l.find? p = some (l.get ⟨i, hi⟩)) ∨
    ((∀ x ∈ l, p x = false) ∧ l.find? p = none) := by
  induction l with
  | nil => exact Or.inr ⟨by simp, rfl⟩
  | cons a t ih =>
    cases h : p a with
    | true =>
      exact Or.inl ⟨0, by simp, by simpa using h,
        fun j hj hji => absurd hji (Nat.not_lt_zero j),
        by simp [List.find?_cons_of_pos _ h]⟩
    | false =>
      have hf : (a :: t).find? p = t.find? p := List.find?_cons_of_neg _ (by simp [h])
      rcases ih with ⟨i, hi, hp, hmin, hres⟩ | ⟨hall, hres⟩
      · refine Or.inl ⟨i + 1, by simpa using Nat.succ_lt_succ hi, by simpa using hp,
          ?_, by rw [hf]; simpa using hres⟩
        intro j hj hji
        cases j with
        | zero => simpa using h
        | succ j2 => simpa using hmin j2 (by simpa using hj) (by omega)
      · refine Or.inr ⟨?_, by rw [hf]; exact hres⟩
        intro x hx
        rcases List.mem_cons.mp hx with rfl | hx2
        · exact h
        · exact hall x hx2

/-- Claim C6 (amended): `extract_name` scans the first 5 LINES (empty lines
included in the count, unlike the claim's "first 5 non-empty lines") of the
stripped text; it returns, stripped, the first of those whose stripped form
is nonempty, shorter than 50 characters, digit-free, and free of header
words as case-insensitive substrings; if none of those five qualifies it
returns the `"Not found"` sentinel. -/
theorem extract_name_first_five_lines (text : String) :
    (∃ i, ∃ hi : i < (((pySplitNl (stripChars text.data)).map stripChars).take 5).length,
      nameCandidate ((((pySplitNl (stripChars text.data)).map stripChars).take 5).get
        ⟨i, hi⟩) = true ∧
      (∀ j (hj : j < (((pySplitNl (stripChars text.data)).map stripChars).take 5).length),
        j < i → nameCandidate ((((pySplitNl (stripChars text.data)).map
          stripChars).take 5).get ⟨j, hj⟩) = false) ∧
      extract_name text = String.mk ((((pySplitNl (stripChars text.data)).map
        stripChars).take 5).get ⟨i, hi⟩)) ∨
    ((∀ l ∈ ((pySplitNl (stripChars text.data)).map stripChars).take 5,
        nameCandidate l = false) ∧
      extract_name text = "Not found") := by
  rcases find?_first nameCandidate (((pySplitNl (stripChars text.data)).map
      stripChars).take 5) with ⟨i, hi, hp, hmin, hres⟩ | ⟨hall, hres⟩
  · exact Or.inl ⟨i, hi, hp, hmin, by rw [extract_name, hres]⟩
  · exact Or.inr ⟨hall, by rw [extract_name, hres]⟩

/-- Claim C6, counterexample to the claim as stated: in
`"A1\n\n\n\n\nJohn"` the qualifying line `"John"` is the second NON-EMPTY
line, well within the first five non-empty lines (as the spec-modelled
variant returns it), yet the code scans the first five raw lines — `"A1"`
and four empty ones — and returns the sentinel. -/
theorem extract_name_counterexample :
    extract_name "A1\n\n\n\n\nJohn" = "Not found" ∧
    extract_name_specModel "A1\n\n\n\n\nJohn" = "John" ∧
    nameCandidate ("John".data) = true := by
  refine ⟨by decide, by decide, by decide⟩

/-- Claim C6, witness: the least-index characterization at a concrete text
(second line qualifies, first does not). -/
theorem extract_name_witness :
    (∃ i, ∃ hi : i < (((pySplitNl (stripChars ("Resume\nJohn Smith").data)).map
        stripChars).take 5).length,
      nameCandidate ((((pySplitNl (stripChars ("Resume\nJohn Smith").data)).map
        stripChars).take 5).get ⟨i, hi⟩) = true ∧
      (∀ j (hj : j < (((pySplitNl (stripChars ("Resume\nJohn Smith").data)).map
          stripChars).take 5).length),
        j < i → nameCandidate ((((pySplitNl (stripChars ("Resume\nJohn Smith").data)).map
          stripChars).take 5).get ⟨j, hj⟩) = false) ∧
      extract_name "Resume\nJohn Smith" = String.mk ((((pySplitNl
        (stripChars ("Resume\nJohn Smith").data)).map stripChars).take 5).get ⟨i, hi⟩)) ∨
    ((∀ l ∈ ((pySplitNl (stripChars ("Resume\nJohn Smith").data)).map stripChars).take 5,
        nameCandidate l = false) ∧
      extract_name "Resume\nJohn Smith" = "Not found") :=
  extract_name_first_five_lines "Resume\nJohn Smith"

/-! ## `parser.py`: document text extraction

`pdfplumber` is not part of this repository; a PDF document is modelled as
its list of pages, each carrying the text the library extracts for it (or
nothing, for a text-less page). -/

/-- A page of an opened PDF, as seen through the page-reading library:
`extractedText` is `none` when the page yields no text. -/
structure PdfPage where
  extractedText : Option String

/-- An opened PDF: its pages in document order. -/
structure PdfDocument where
  pages : List PdfPage

/-- Modelled from the spec: `pdfplumber`'s `page.extract_text()` (the
library is absent from the repository); per the specification, a page
yielding no text contributes an empty string rather than a failure. -/
def pageText (p : PdfPage) : String :=
  match p.extractedText with
  | some s => s
  | none => ""

/-- `parser.extract_text_from_pdf` (lines 7-26): accumulate
`page.extract_text() + "\n"` over the pages in document order. -/
def extract_text_from_pdf (doc : PdfDocument) : String :=
  doc.pages.foldl (fun text p => text ++ pageText p ++ "\x0a") ""

/-- `parser.extract_text` (lines 49-65): dispatch on the file suffix; any
path ending in neither `.pdf` nor `.docx` gets the sentinel error string.
The two format readers perform file input and are passed as parameters. -/
def extract_text (file_path : String) (readPdf readDocx : String → String) : String :=
  if endsWithL file_path.data (".pdf").data then readPdf file_path
  else if endsWithL file_path.data (".docx").data then readDocx file_path
  else "ERROR: File must be .pdf or .docx"

theorem foldl_append_string (ps : List PdfPage) : ∀ init : String,
    ps.foldl (fun text p => text ++ pageText p ++ "\x0a") init =
      init ++ String.mk ((ps.map (fun p => (pageText p).data ++ ['\x0a'])).flatten) := by
  induction ps with
  | nil =>
    intro init
    show init = init ++ String.mk []
    rw [show String.mk ([] : List Char) = "" from rfl, String.append_empty]
  | cons p t ih =>
    intro init
    rw [List.foldl_cons, ih]
    show (init ++ pageText p ++ "\x0a") ++ String.mk _ = init ++ String.mk _
    cases init with
    | mk d =>
      cases hp : pageText p with
      | mk pd =>
        show String.mk (((d ++ pd) ++ ['\x0a']) ++ _) = String.mk (d ++ _)
        rw [List.map_cons, List.flatten_cons, hp]
        simp

/-- Claim C7: PDF extraction is total over page contents — for every list
of readable pages, each page contributes its text plus a newline, and a
page yielding no text contributes exactly an empty line rather than a
failure (the page-reading library is spec-modelled; see `pageText`). -/
theorem extract_text_from_pdf_total (doc : PdfDocument) :
    extract_text_from_pdf doc =
      String.mk ((doc.pages.map (fun p => (pageText p).data ++ ['\x0a'])).flatten) ∧
    ∀ p ∈ doc.pages, p.extractedText = none →
      (pageText p).data ++ ['\x0a'] = ['\x0a'] := by
  constructor
  · rw [extract_text_from_pdf, foldl_append_string]
    show String.mk ([] ++ _) = _
    rw [List.nil_append]
  · intro p _ hp
    simp [pageText, hp]

/-- Claim C7, witness: a two-page document whose first page yields no text
extracts to an empty line followed by the second page's line. -/
theorem extract_text_from_pdf_witness :
    extract_text_from_pdf ⟨[⟨none⟩, ⟨some "hi"⟩]⟩ = "\x0ahi\x0a" := by
  have h := (extract_text_from_pdf_total ⟨[⟨none⟩, ⟨some "hi"⟩]⟩).1
  rw [h]
  rfl

/-- Claim C9: for every file path ending in neither `.pdf` nor `.docx`,
`extract_text` returns the sentinel error string (a value, not an
exception), whatever the two format readers do. -/
theorem extract_text_unsupported (file_path : String) (readPdf readDocx : String → String)
    (h1 : endsWithL file_path.data (".pdf").data = false)
    (h2 : endsWithL file_path.data (".docx").data = false) :
    extract_text file_path readPdf readDocx = "ERROR: File must be .pdf or .docx" := by
  rw [extract_text, if_neg (by simp [h1]), if_neg (by simp [h2])]

/-- Claim C9, witness: a `.txt` path gets the sentinel error string. -/
theorem extract_text_unsupported_witness :
    extract_text "resume.txt" (fun _ => "p") (fun _ => "d")
      = "ERROR: File must be .pdf or .docx" :=
  extract_text_unsupported "resume.txt" (fun _ => "p") (fun _ => "d")
    (by decide) (by decide)
